import Mathlib

/-!
Shallow embedding of src/src/main.rs of the evremap repository.

The control flow of main.rs is encoded directly.  Effects performed by
code outside main.rs (device lookups from the deviceinfo module, config
parsing from the mapping module, the mapper from the remapper module,
file opening, evdev reads, thread sleeps) are modelled as explicit
parameters: oracles indexed by call count, together with an effect trace
listing each external action in the order main.rs performs it.
-/

namespace Evremap

/-- Device metadata as produced by deviceinfo lookups; main.rs only
consumes the path field. -/
structure DeviceInfo where
  name : String
  path : String
  phys : Option String
deriving DecidableEq

/-- Result of one deviceinfo lookup (DeviceInfo::with_path or
DeviceInfo::with_name). -/
abbrev LookupResult := Except String DeviceInfo

/-- Event code of an evdev event: a key code, or anything else. -/
inductive EvCode where
  | ev_key (k : ℕ)
  | other (tag : ℕ)
deriving DecidableEq

/-- An evdev input event as consumed by debug_events. -/
structure InputEvent where
  code : EvCode
  value : ℤ
deriving DecidableEq

/-- Read status of evdev_rs next_event. -/
inductive ReadStatus where
  | success
  | sync
deriving DecidableEq

/-- One externally visible action of main.rs, in program order. -/
inductive Step where
  | load_config (file : String)
  | sleep_delay (secs : ℚ)
  | poll_sleep (secs : ℕ)
  | lookup_path (p : String)
  | lookup_name (n : String) (phys : Option String)
  | open_file (p : String)
  | new_device (p : String)
  | grab
  | print_key (k : ℕ) (value : ℤ)
  | create_mapper (p : String)
  | run_engine
deriving DecidableEq

/-- The wait-for-device poll loop of get_device (main.rs lines 128-150).
Each iteration sleeps, bumps the sleep time by one second capping at ten
seconds, then retries the same lookup the head of get_device used.  The
oracles are indexed by attempt number so that their answers may change
over time (a device being plugged in).  Fuel bounds the number of
iterations we observe; a run that exhausts fuel yields none. -/
def gd_loop (with_path : String → ℕ → LookupResult)
    (with_name : String → Option String → ℕ → LookupResult)
    (path name phys : Option String)
    (sleep attempt fuel : ℕ) : Option LookupResult × List Step :=
  match fuel with
  | 0 => (none, [])
  | fuel' + 1 =>
    let sleep' := min (sleep + 1) 10
    match path with
    | some p =>
      match with_path p attempt with
      | .ok dev => (some (.ok dev), [.poll_sleep sleep, .lookup_path p])
      | .error _ =>
        let rest := gd_loop with_path with_name path name phys sleep' (attempt + 1) fuel'
        (rest.1, .poll_sleep sleep :: .lookup_path p :: rest.2)
    | none =>
      match name with
      | some n =>
        match with_name n phys attempt with
        | .ok dev => (some (.ok dev), [.poll_sleep sleep, .lookup_name n phys])
        | .error _ =>
          let rest := gd_loop with_path with_name path name phys sleep' (attempt + 1) fuel'
          (rest.1, .poll_sleep sleep :: .lookup_name n phys :: rest.2)
      | none =>
        let rest := gd_loop with_path with_name path name phys sleep' (attempt + 1) fuel'
        (rest.1, .poll_sleep sleep :: rest.2)

/-- get_device (main.rs lines 102-151).  Looks up by path when a path is
given, else by name, else fails with the fixed message.  On a failed
lookup it returns the error unless wait_for_device is set, in which case
it enters the poll loop with an initial sleep of one second. -/
def get_device (with_path : String → ℕ → LookupResult)
    (with_name : String → Option String → ℕ → LookupResult)
    (path name phys : Option String) (wait_for_device : Bool)
    (fuel : ℕ) : Option LookupResult × List Step :=
  match path with
  | some p =>
    match with_path p 0 with
    | .ok dev => (some (.ok dev), [.lookup_path p])
    | .error err =>
      if !wait_for_device then (some (.error err), [.lookup_path p])
      else
        let rest := gd_loop with_path with_name path name phys 1 1 fuel
        (rest.1, .lookup_path p :: rest.2)
  | none =>
    match name with
    | some n =>
      match with_name n phys 0 with
      | .ok dev => (some (.ok dev), [.lookup_name n phys])
      | .error err =>
        if !wait_for_device then (some (.error err), [.lookup_name n phys])
        else
          let rest := gd_loop with_path with_name path name phys 1 1 fuel
          (rest.1, .lookup_name n phys :: rest.2)
    | none => (some (.error "device or path is required"), [])

/-- Extract the poll sleep durations from a trace. -/
def sleepVal : Step → Option ℕ
  | .poll_sleep s => some s
  | _ => none

/-- The list of poll sleep durations of a trace, in order. -/
def poll_sleeps (tr : List Step) : List ℕ :=
  tr.filterMap sleepVal

/-- Boolean classifiers over steps, used to state trace properties. -/
def isRunEngine : Step → Bool
  | .run_engine => true
  | _ => false

def isGrab : Step → Bool
  | .grab => true
  | _ => false

def isPrintKey : Step → Bool
  | .print_key _ _ => true
  | _ => false

def isSleepDelay : Step → Bool
  | .sleep_delay _ => true
  | _ => false

def isPollSleep : Step → Bool
  | .poll_sleep _ => true
  | _ => false

def isLookupName : Step → Bool
  | .lookup_name _ _ => true
  | _ => false

def isCreateMapper : Step → Bool
  | .create_mapper _ => true
  | _ => false

/-- The mapping configuration as consumed by main.rs: device selection
hints plus the mapping entries.  The mapping module is not under src, and
the claims treated here never inspect the entries, so they are kept as
opaque tokens. -/
structure MappingConfig where
  device_name : Option String
  phys : Option String
  path : Option String
  mappings : List ℕ
deriving DecidableEq

/-- The three CLI override steps of the Remap arm (main.rs lines
210-218): each of device_name, phys and path, when given on the command
line, overwrites the corresponding config field. -/
def apply_overrides (cfg : MappingConfig)
    (device_name phys path : Option String) : MappingConfig :=
  let cfg1 := match device_name with
    | some device => { cfg with device_name := some device }
    | none => cfg
  let cfg2 := match phys with
    | some ph => { cfg1 with phys := some ph }
    | none => cfg1
  match path with
  | some p => { cfg2 with path := some p }
  | none => cfg2

/-- Modelled from the spec: clap parses the remap delay option with
default_value 2 (main.rs line 52, the clap attribute; clap itself is an
external crate).  The resolved delay is the CLI value when given, else
the default. -/
def remap_default_delay : ℚ := 2

def resolve_delay (cli_delay : Option ℚ) : ℚ :=
  cli_delay.getD remap_default_delay

/-- The Remap arm of main (main.rs lines 197-232).  from_file is the
outcome of MappingConfig::from_file on the given config file;
create_mapper_result is the outcome of InputMapper::create_mapper on the
selected device path (it opens and grabs the source and builds the
sink); run_mapper_result is the outcome of the engine loop, where device
EOF surfaces as an error.  The first component is the returned Result
(none when the poll loop exhausted its fuel); the second is the trace. -/
def remap_main (from_file : Except String MappingConfig)
    (with_path : String → ℕ → LookupResult)
    (with_name : String → Option String → ℕ → LookupResult)
    (config_file : String) (delay : ℚ)
    (path device_name phys : Option String) (wait_for_device : Bool)
    (create_mapper_result : String → Except String Unit)
    (run_mapper_result : Except String Unit)
    (fuel : ℕ) : Option (Except String Unit) × List Step :=
  match from_file with
  | .error e =>
    (some (.error ("loading MappingConfig from " ++ config_file ++ ": " ++ e)),
      [.load_config config_file])
  | .ok cfg0 =>
    let cfg := apply_overrides cfg0 device_name phys path
    let gd := get_device with_path with_name cfg.path cfg.device_name cfg.phys
        wait_for_device fuel
    let pre : List Step := [.load_config config_file, .sleep_delay delay]
    match gd.1 with
    | none => (none, pre ++ gd.2)
    | some (.error e) => (some (.error e), pre ++ gd.2)
    | some (.ok dev) =>
      match create_mapper_result dev.path with
      | .error e => (some (.error e), pre ++ gd.2 ++ [.create_mapper dev.path])
      | .ok _ =>
        (some run_mapper_result,
          pre ++ gd.2 ++ [.create_mapper dev.path, .run_engine])

/-- The event loop of debug_events (main.rs lines 163-174).  next is the
stream of next_event outcomes indexed by call count; an error propagates,
Sync status bails with the fixed message, a Success key event is printed
and any other Success event is skipped.  Fuel bounds the number of
iterations we observe. -/
def debug_loop (next : ℕ → Except String (ReadStatus × InputEvent))
    (i fuel : ℕ) : Option (Except String Unit) × List Step :=
  match fuel with
  | 0 => (none, [])
  | fuel' + 1 =>
    match next i with
    | .error e => (some (.error e), [])
    | .ok (.sync, _) => (some (.error "ReadStatus::Sync!"), [])
    | .ok (.success, ev) =>
      match ev.code with
      | .ev_key k =>
        let rest := debug_loop next (i + 1) fuel'
        (rest.1, .print_key k ev.value :: rest.2)
      | .other _ =>
        let rest := debug_loop next (i + 1) fuel'
        (rest.1, rest.2)

/-- debug_events (main.rs lines 153-175): open the device file with the
opening context, build an evdev device from it with its context, then
run the event loop.  No grab is requested anywhere on this path. -/
def debug_events (open_result new_device_result : Except String Unit)
    (next : ℕ → Except String (ReadStatus × InputEvent))
    (device : DeviceInfo) (fuel : ℕ) : Option (Except String Unit) × List Step :=
  match open_result with
  | .error e =>
    (some (.error ("opening " ++ device.path ++ ": " ++ e)), [.open_file device.path])
  | .ok _ =>
    match new_device_result with
    | .error e =>
      (some (.error ("failed to create new Device from file " ++ device.path ++ ": " ++ e)),
        [.open_file device.path, .new_device device.path])
    | .ok _ =>
      let rest := debug_loop next 0 fuel
      (rest.1, .open_file device.path :: .new_device device.path :: rest.2)

/-- The DebugEvents arm of main (main.rs lines 184-196): select the
device with get_device and wait_for_device hard-coded to false, then run
debug_events on it. -/
def debug_events_main (with_path : String → ℕ → LookupResult)
    (with_name : String → Option String → ℕ → LookupResult)
    (path device_name phys : Option String)
    (open_result new_device_result : Except String Unit)
    (next : ℕ → Except String (ReadStatus × InputEvent))
    (fuel gd_fuel : ℕ) : Option (Except String Unit) × List Step :=
  let gd := get_device with_path with_name path device_name phys false gd_fuel
  match gd.1 with
  | none => (none, gd.2)
  | some (.error e) => (some (.error e), gd.2)
  | some (.ok dev) =>
    let de := debug_events open_result new_device_result next dev fuel
    (de.1, gd.2 ++ de.2)

/-- Modelled from the spec: the process exit status of main returning an
anyhow Result (exit codes: 0 normal; nonzero with message on error). -/
def exit_code : Except String Unit → ℕ
  | .ok _ => 0
  | .error _ => 1

/-! Concrete fixtures used by witnesses and counterexamples. -/

def devA : DeviceInfo :=
  { name := "kbd", path := "/dev/input/event3", phys := none }

def wpNever : String → ℕ → LookupResult :=
  fun _ _ => .error "no such device"

def wpAlways : String → ℕ → LookupResult :=
  fun _ _ => .ok devA

/-- A path lookup that succeeds from attempt k on. -/
def wpAfter (k : ℕ) : String → ℕ → LookupResult :=
  fun _ i => if k ≤ i then .ok devA else .error "no such device"

def wnNever : String → Option String → ℕ → LookupResult :=
  fun _ _ _ => .error "no such name"

def wnAlways : String → Option String → ℕ → LookupResult :=
  fun _ _ _ => .ok devA

def cfgA : MappingConfig :=
  { device_name := some "kbd", phys := none, path := some "/dev/input/event3",
    mappings := [0] }

/-- A sample event stream: one key press, one key release, then EOF. -/
def evStream : ℕ → Except String (ReadStatus × InputEvent) :=
  fun i =>
    if i = 0 then .ok (.success, { code := .ev_key 30, value := 1 })
    else if i = 1 then .ok (.success, { code := .ev_key 30, value := 0 })
    else .error "EOF"

def cmOK : String → Except String Unit := fun _ => .ok ()

/-! Supporting lemmas about the poll loop. -/

theorem gd_loop_path_congr (wp : String → ℕ → LookupResult)
    (wn wn' : String → Option String → ℕ → LookupResult) (p : String)
    (nm nm' ph ph' : Option String) :
    ∀ fuel sleep attempt,
      gd_loop wp wn (some p) nm ph sleep attempt fuel
        = gd_loop wp wn' (some p) nm' ph' sleep attempt fuel := by
  intro fuel
  induction fuel with
  | zero => intro sleep attempt; rfl
  | succ f ih =>
    intro sleep attempt
    cases h : wp p attempt with
    | ok dev => simp [gd_loop, h]
    | error e => simp [gd_loop, h, ih]

theorem gd_loop_path_no_name (wp : String → ℕ → LookupResult)
    (wn : String → Option String → ℕ → LookupResult) (p : String)
    (nm ph : Option String) :
    ∀ fuel sleep attempt,
      ((gd_loop wp wn (some p) nm ph sleep attempt fuel).2.filter isLookupName) = [] := by
  intro fuel
  induction fuel with
  | zero => intro sleep attempt; rfl
  | succ f ih =>
    intro sleep attempt
    cases h : wp p attempt with
    | ok dev => simp [gd_loop, h, isLookupName]
    | error e => simp [gd_loop, h, isLookupName, ih]

/-- Every step of the poll loop trace is a poll sleep or a lookup, so any
predicate false on those filters to the empty list. -/
theorem gd_loop_filter_eq_nil (pr : Step → Bool)
    (h1 : ∀ s, pr (.poll_sleep s) = false)
    (h2 : ∀ p, pr (.lookup_path p) = false)
    (h3 : ∀ n ph, pr (.lookup_name n ph) = false)
    (wp : String → ℕ → LookupResult)
    (wn : String → Option String → ℕ → LookupResult)
    (path nm ph : Option String) :
    ∀ fuel sleep attempt,
      ((gd_loop wp wn path nm ph sleep attempt fuel).2.filter pr) = [] := by
  intro fuel
  induction fuel with
  | zero => intro sleep attempt; rfl
  | succ f ih =>
    intro sleep attempt
    rcases path with _ | p
    · rcases nm with _ | n
      · simp [gd_loop, h1, ih]
      · cases h : wn n ph attempt with
        | ok dev => simp [gd_loop, h, h1, h3]
        | error e => simp [gd_loop, h, h1, h3, ih]
    · cases h : wp p attempt with
      | ok dev => simp [gd_loop, h, h1, h2]
      | error e => simp [gd_loop, h, h1, h2, ih]

/-- Same statement for the whole of get_device. -/
theorem get_device_filter_eq_nil (pr : Step → Bool)
    (h1 : ∀ s, pr (.poll_sleep s) = false)
    (h2 : ∀ p, pr (.lookup_path p) = false)
    (h3 : ∀ n ph, pr (.lookup_name n ph) = false)
    (wp : String → ℕ → LookupResult)
    (wn : String → Option String → ℕ → LookupResult)
    (path nm ph : Option String) (w : Bool) (fuel : ℕ) :
    ((get_device wp wn path nm ph w fuel).2.filter pr) = [] := by
  rcases path with _ | p
  · rcases nm with _ | n
    · rfl
    · cases h : wn n ph 0 with
      | ok dev => simp [get_device, h, h3]
      | error e =>
        cases w
        · simp [get_device, h, h3]
        · simp [get_device, h, h3, gd_loop_filter_eq_nil pr h1 h2 h3]
  · cases h : wp p 0 with
    | ok dev => simp [get_device, h, h2]
    | error e =>
      cases w
      · simp [get_device, h, h2]
      · simp [get_device, h, h2, gd_loop_filter_eq_nil pr h1 h2 h3]

/-- When the loop answers, the answer is a successful lookup by path. -/
theorem gd_loop_ok_path (wp : String → ℕ → LookupResult)
    (wn : String → Option String → ℕ → LookupResult) (p : String)
    (nm ph : Option String) :
    ∀ fuel sleep attempt r,
      (gd_loop wp wn (some p) nm ph sleep attempt fuel).1 = some r →
      ∃ d, r = .ok d ∧ ∃ k, wp p k = .ok d := by
  intro fuel
  induction fuel with
  | zero => intro sleep attempt r h; simp [gd_loop] at h
  | succ f ih =>
    intro sleep attempt r h
    cases hw : wp p attempt with
    | ok dev =>
      simp [gd_loop, hw] at h
      exact ⟨dev, h.symm, attempt, hw⟩
    | error e =>
      simp [gd_loop, hw] at h
      exact ih _ _ r h

/-- When the loop answers with no path given, the answer is a successful
lookup by name with the given phys. -/
theorem gd_loop_ok_name (wp : String → ℕ → LookupResult)
    (wn : String → Option String → ℕ → LookupResult) (n : String)
    (ph : Option String) :
    ∀ fuel sleep attempt r,
      (gd_loop wp wn none (some n) ph sleep attempt fuel).1 = some r →
      ∃ d, r = .ok d ∧ ∃ k, wn n ph k = .ok d := by
  intro fuel
  induction fuel with
  | zero => intro sleep attempt r h; simp [gd_loop] at h
  | succ f ih =>
    intro sleep attempt r h
    cases hw : wn n ph attempt with
    | ok dev =>
      simp [gd_loop, hw] at h
      exact ⟨dev, h.symm, attempt, hw⟩
    | error e =>
      simp [gd_loop, hw] at h
      exact ih _ _ r h

theorem range_map_min_succ (s m : ℕ) (hs : s ≤ 10) :
    (List.range (m + 1)).map (fun j => min (s + j) 10)
      = s :: (List.range m).map (fun j => min (min (s + 1) 10 + j) 10) := by
  rw [List.range_succ_eq_map]
  simp only [List.map_cons, List.map_map]
  refine congrArg₂ _ (by omega) ?_
  refine List.map_congr_left ?_
  intro j _
  simp only [Function.comp_apply]
  omega

/-- Closed form for the poll sleep durations: starting from an initial
sleep of s seconds with s at most 10, the successive sleeps are
min (s + j) 10. -/
theorem gd_loop_sleeps_closed (wp : String → ℕ → LookupResult)
    (wn : String → Option String → ℕ → LookupResult)
    (path nm ph : Option String) :
    ∀ fuel sleep attempt, sleep ≤ 10 →
      ∃ m, poll_sleeps (gd_loop wp wn path nm ph sleep attempt fuel).2
        = (List.range m).map (fun j => min (sleep + j) 10) := by
  intro fuel
  induction fuel with
  | zero =>
    intro sleep attempt _
    exact ⟨0, by simp [gd_loop, poll_sleeps]⟩
  | succ f ih =>
    intro sleep attempt hs
    have hs' : min (sleep + 1) 10 ≤ 10 := by omega
    rcases path with _ | p
    · rcases nm with _ | n
      · obtain ⟨m, hm⟩ := ih (min (sleep + 1) 10) (attempt + 1) hs'
        refine ⟨m + 1, ?_⟩
        simp only [gd_loop, poll_sleeps, List.filterMap_cons, sleepVal] at hm ⊢
        rw [range_map_min_succ sleep m hs, hm]
      · cases h : wn n ph attempt with
        | ok dev =>
          refine ⟨1, ?_⟩
          have hmin : min (sleep + 0) 10 = sleep := by omega
          have hr : List.range 1 = [0] := rfl
          simp only [hr, List.map_cons, List.map_nil, hmin]
          simp [gd_loop, h, poll_sleeps, sleepVal]
        | error e =>
          obtain ⟨m, hm⟩ := ih (min (sleep + 1) 10) (attempt + 1) hs'
          refine ⟨m + 1, ?_⟩
          simp only [gd_loop, h, poll_sleeps, List.filterMap_cons, sleepVal] at hm ⊢
          rw [range_map_min_succ sleep m hs, hm]
    · cases h : wp p attempt with
      | ok dev =>
        refine ⟨1, ?_⟩
        have hmin : min (sleep + 0) 10 = sleep := by omega
        have hr : List.range 1 = [0] := rfl
        simp only [hr, List.map_cons, List.map_nil, hmin]
        simp [gd_loop, h, poll_sleeps, sleepVal]
      | error e =>
        obtain ⟨m, hm⟩ := ih (min (sleep + 1) 10) (attempt + 1) hs'
        refine ⟨m + 1, ?_⟩
        simp only [gd_loop, h, poll_sleeps, List.filterMap_cons, sleepVal] at hm ⊢
        rw [range_map_min_succ sleep m hs, hm]

/-- A poll loop given fuel performs at least one sleep. -/
theorem gd_loop_sleeps_ne (wp : String → ℕ → LookupResult)
    (wn : String → Option String → ℕ → LookupResult)
    (path nm ph : Option String) (sleep attempt f : ℕ) :
    poll_sleeps (gd_loop wp wn path nm ph sleep attempt (f + 1)).2 ≠ [] := by
  rcases path with _ | p
  · rcases nm with _ | n
    · simp [gd_loop, poll_sleeps, sleepVal]
    · cases h : wn n ph attempt with
      | ok dev => simp [gd_loop, h, poll_sleeps, sleepVal]
      | error e => simp [gd_loop, h, poll_sleeps, sleepVal]
  · cases h : wp p attempt with
    | ok dev => simp [gd_loop, h, poll_sleeps, sleepVal]
    | error e => simp [gd_loop, h, poll_sleeps, sleepVal]

/-- The poll sleeps of a whole get_device call follow the closed form
starting at one second. -/
theorem get_device_sleeps_closed (wp : String → ℕ → LookupResult)
    (wn : String → Option String → ℕ → LookupResult)
    (path nm ph : Option String) (w : Bool) (fuel : ℕ) :
    ∃ m, poll_sleeps (get_device wp wn path nm ph w fuel).2
      = (List.range m).map (fun j => min (1 + j) 10) := by
  rcases path with _ | p
  · rcases nm with _ | n
    · exact ⟨0, by simp [get_device, poll_sleeps]⟩
    · cases h : wn n ph 0 with
      | ok dev => exact ⟨0, by simp [get_device, h, poll_sleeps, sleepVal]⟩
      | error e =>
        cases w
        · exact ⟨0, by simp [get_device, h, poll_sleeps, sleepVal]⟩
        · obtain ⟨m, hm⟩ :=
            gd_loop_sleeps_closed wp wn none (some n) ph fuel 1 1 (by omega)
          exact ⟨m, by simp [get_device, h, poll_sleeps, sleepVal] at hm ⊢; exact hm⟩
  · cases h : wp p 0 with
    | ok dev => exact ⟨0, by simp [get_device, h, poll_sleeps, sleepVal]⟩
    | error e =>
      cases w
      · exact ⟨0, by simp [get_device, h, poll_sleeps, sleepVal]⟩
      · obtain ⟨m, hm⟩ :=
          gd_loop_sleeps_closed wp wn (some p) nm ph fuel 1 1 (by omega)
        exact ⟨m, by simp [get_device, h, poll_sleeps, sleepVal] at hm ⊢; exact hm⟩

theorem poll_sleeps_lookup_path (p : String) (l : List Step) :
    poll_sleeps (.lookup_path p :: l) = poll_sleeps l := rfl

theorem poll_sleeps_lookup_name (n : String) (ph : Option String) (l : List Step) :
    poll_sleeps (.lookup_name n ph :: l) = poll_sleeps l := rfl

theorem poll_sleeps_poll (s : ℕ) (l : List Step) :
    poll_sleeps (.poll_sleep s :: l) = s :: poll_sleeps l := rfl

/-- An element of the closed-form backoff sequence. -/
theorem backoff_seq_elem (m i v : ℕ)
    (h : ((List.range m).map (fun j => min (1 + j) 10))[i]? = some v) :
    i < m ∧ v = min (1 + i) 10 := by
  rw [List.getElem?_map] at h
  cases hr : (List.range m)[i]? with
  | none => rw [hr] at h; simp at h
  | some j =>
    rw [hr] at h
    obtain ⟨hlt, hj⟩ := List.getElem?_eq_some.mp hr
    rw [List.getElem_range] at hj
    constructor
    · simpa using hlt
    · subst hj
      exact (Option.some.inj h).symm

/-! Claim theorems about get_device. -/

/-- Claim C8: a call to get_device with neither a path nor a device name
returns the error "device or path is required" at once, with no sleep
and no lookup, even when wait_for_device is true. -/
theorem get_device_requires_selector (wp : String → ℕ → LookupResult)
    (wn : String → Option String → ℕ → LookupResult)
    (ph : Option String) (w : Bool) (fuel : ℕ) :
    get_device wp wn none none ph w fuel
      = (some (.error "device or path is required"), []) := rfl

/-- Claim C9: when both a path and a device name are supplied, the
device is looked up by path only: the result and the trace do not depend
on the name, the phys or the name-lookup oracle, and no lookup by name
ever appears in the trace, neither on the initial attempt nor in the
poll loop. -/
theorem get_device_path_priority (wp : String → ℕ → LookupResult)
    (wn wn' : String → Option String → ℕ → LookupResult)
    (p n n' : String) (ph ph' : Option String) (w : Bool) (fuel : ℕ) :
    get_device wp wn (some p) (some n) ph w fuel
        = get_device wp wn' (some p) (some n') ph' w fuel
    ∧ (get_device wp wn (some p) (some n) ph w fuel).2.filter isLookupName = [] := by
  constructor
  · cases h : wp p 0 with
    | ok dev => simp [get_device, h]
    | error e =>
      cases w
      · simp [get_device, h]
      · simp [get_device, h,
          gd_loop_path_congr wp wn wn' p (some n) (some n') ph ph']
  · cases h : wp p 0 with
    | ok dev => simp [get_device, h, isLookupName]
    | error e =>
      cases w
      · simp [get_device, h, isLookupName]
      · simp [get_device, h, isLookupName, gd_loop_path_no_name wp wn p (some n) ph]

/-- Claim C4: in the wait-for-device poll loop of get_device, the sleep
between successive lookup attempts starts at one second, never
decreases, and never exceeds ten seconds, for every number of failed
attempts. -/
theorem get_device_backoff (wp : String → ℕ → LookupResult)
    (wn : String → Option String → ℕ → LookupResult)
    (path nm ph : Option String) (w : Bool) (fuel : ℕ) :
    (∀ v, (poll_sleeps (get_device wp wn path nm ph w fuel).2).head? = some v → v = 1)
    ∧ (∀ i a b, (poll_sleeps (get_device wp wn path nm ph w fuel).2)[i]? = some a →
        (poll_sleeps (get_device wp wn path nm ph w fuel).2)[i + 1]? = some b → a ≤ b)
    ∧ (∀ v ∈ poll_sleeps (get_device wp wn path nm ph w fuel).2, 1 ≤ v ∧ v ≤ 10) := by
  obtain ⟨m, hm⟩ := get_device_sleeps_closed wp wn path nm ph w fuel
  refine ⟨?_, ?_, ?_⟩
  · intro v hv
    rw [hm, List.head?_eq_getElem?] at hv
    obtain ⟨-, hv⟩ := backoff_seq_elem m 0 v hv
    omega
  · intro i a b ha hb
    rw [hm] at ha hb
    obtain ⟨-, ha⟩ := backoff_seq_elem m i a ha
    obtain ⟨-, hb⟩ := backoff_seq_elem m (i + 1) b hb
    omega
  · intro v hv
    rw [hm] at hv
    obtain ⟨i, hi⟩ := List.mem_iff_getElem?.mp hv
    obtain ⟨-, hi⟩ := backoff_seq_elem m i v hi
    omega

/-- Witness for claim C4 at a concrete failing lookup: the first sleep
is one second, the sleeps never decrease, and a ten-second sleep is
within bounds. -/
theorem get_device_backoff_witness :
    (poll_sleeps (get_device wpNever wnNever (some "/dev/x") none none true 12).2).head?
        = some 1
    ∧ (1 : ℕ) = 1
    ∧ (1 : ℕ) ≤ 2
    ∧ ((1 : ℕ) ≤ 10 ∧ (10 : ℕ) ≤ 10) := by
  refine ⟨by decide, ?_, ?_, ?_⟩
  · exact (get_device_backoff wpNever wnNever (some "/dev/x") none none true 12).1
      1 (by decide)
  · exact (get_device_backoff wpNever wnNever (some "/dev/x") none none true 12).2.1
      0 1 2 (by decide) (by decide)
  · exact (get_device_backoff wpNever wnNever (some "/dev/x") none none true 12).2.2
      10 (by decide)

/-- Claim C2: with a path or a device name supplied, a failed lookup is
returned as that error when wait_for_device is false; when
wait_for_device is true no error is returned: the call enters the poll
loop and yields Ok only once some lookup attempt succeeds. -/
theorem get_device_wait_semantics (wp : String → ℕ → LookupResult)
    (wn : String → Option String → ℕ → LookupResult)
    (p n : String) (nOpt ph : Option String) (fuel : ℕ) :
    (∀ e, wp p 0 = .error e →
      (get_device wp wn (some p) nOpt ph false fuel).1 = some (.error e)
      ∧ (∀ r, (get_device wp wn (some p) nOpt ph true fuel).1 = some r →
          ∃ d, r = .ok d ∧ ∃ k, wp p k = .ok d)
      ∧ (0 < fuel →
          poll_sleeps (get_device wp wn (some p) nOpt ph true fuel).2 ≠ []))
    ∧ (∀ e, wn n ph 0 = .error e →
      (get_device wp wn none (some n) ph false fuel).1 = some (.error e)
      ∧ (∀ r, (get_device wp wn none (some n) ph true fuel).1 = some r →
          ∃ d, r = .ok d ∧ ∃ k, wn n ph k = .ok d)
      ∧ (0 < fuel →
          poll_sleeps (get_device wp wn none (some n) ph true fuel).2 ≠ [])) := by
  constructor
  · intro e he
    refine ⟨by simp [get_device, he], ?_, ?_⟩
    · intro r hr
      simp [get_device, he] at hr
      exact gd_loop_ok_path wp wn p nOpt ph fuel 1 1 r hr
    · intro hf
      obtain ⟨f, rfl⟩ : ∃ f, fuel = f + 1 := ⟨fuel - 1, by omega⟩
      have hne := gd_loop_sleeps_ne wp wn (some p) nOpt ph 1 1 f
      simpa [get_device, he, poll_sleeps_lookup_path] using hne
  · intro e he
    refine ⟨by simp [get_device, he], ?_, ?_⟩
    · intro r hr
      simp [get_device, he] at hr
      exact gd_loop_ok_name wp wn n ph fuel 1 1 r hr
    · intro hf
      obtain ⟨f, rfl⟩ : ∃ f, fuel = f + 1 := ⟨fuel - 1, by omega⟩
      have hne := gd_loop_sleeps_ne wp wn none (some n) ph 1 1 f
      simpa [get_device, he, poll_sleeps_lookup_name] using hne

/-- Witness for claim C2: a lookup failing on the first two attempts and
succeeding on the third gives an immediate error without wait, and an Ok
backed by a successful lookup with wait. -/
theorem get_device_wait_semantics_witness :
    wpAfter 2 "/dev/x" 0 = .error "no such device"
    ∧ (get_device (wpAfter 2) wnNever (some "/dev/x") none none false 9).1
        = some (.error "no such device")
    ∧ (∃ d, (Except.ok devA : LookupResult) = .ok d ∧ ∃ k, wpAfter 2 "/dev/x" k = .ok d)
    ∧ poll_sleeps (get_device (wpAfter 2) wnNever (some "/dev/x") none none true 9).2 ≠ [] := by
  have base := (get_device_wait_semantics (wpAfter 2) wnNever "/dev/x" "kbd" none none 9).1
    "no such device" rfl
  refine ⟨rfl, base.1, ?_, base.2.2 (by decide)⟩
  exact base.2.1 (Except.ok devA) rfl

/-! Supporting lemmas and claim theorems about the Remap arm. -/

/-- Structure of every Remap run whose config loads: the trace is the
config load, then the startup sleep, then the whole get_device trace,
then only mapper-creation and engine steps; the result is determined by
the get_device outcome, the mapper creation and the engine run. -/
theorem remap_ok_decomp (wp : String → ℕ → LookupResult)
    (wn : String → Option String → ℕ → LookupResult)
    (cf : String) (delay : ℚ) (pa dn ph : Option String) (w : Bool)
    (cm : String → Except String Unit) (rm : Except String Unit)
    (fuel : ℕ) (cfg : MappingConfig) :
    ∃ tail,
      (remap_main (.ok cfg) wp wn cf delay pa dn ph w cm rm fuel).2
        = .load_config cf :: .sleep_delay delay ::
            ((get_device wp wn (apply_overrides cfg dn ph pa).path
              (apply_overrides cfg dn ph pa).device_name
              (apply_overrides cfg dn ph pa).phys w fuel).2 ++ tail)
      ∧ tail.all (fun s => isCreateMapper s || isRunEngine s) = true
      ∧ (remap_main (.ok cfg) wp wn cf delay pa dn ph w cm rm fuel).1
        = (match (get_device wp wn (apply_overrides cfg dn ph pa).path
              (apply_overrides cfg dn ph pa).device_name
              (apply_overrides cfg dn ph pa).phys w fuel).1 with
          | none => none
          | some (.error e) => some (.error e)
          | some (.ok dev) =>
            match cm dev.path with
            | .error e => some (.error e)
            | .ok _ => some rm) := by
  rcases hgd : (get_device wp wn (apply_overrides cfg dn ph pa).path
      (apply_overrides cfg dn ph pa).device_name
      (apply_overrides cfg dn ph pa).phys w fuel).1 with _ | r
  · exact ⟨[], by simp [remap_main, hgd], rfl, by simp [remap_main, hgd]⟩
  · rcases r with e | dev
    · exact ⟨[], by simp [remap_main, hgd], rfl, by simp [remap_main, hgd]⟩
    · cases hcm : cm dev.path with
      | ok u =>
        refine ⟨[.create_mapper dev.path, .run_engine], ?_, rfl, ?_⟩
        · simp [remap_main, hgd, hcm]
        · simp [remap_main, hgd, hcm]
      | error e =>
        refine ⟨[.create_mapper dev.path], ?_, rfl, ?_⟩
        · simp [remap_main, hgd, hcm]
        · simp [remap_main, hgd, hcm]

/-- Claim C7: when the configuration file cannot be loaded, remap
returns a fatal error whose message carries the config file path as
context, and nothing else happens: no device lookup, no sleep, no open,
no engine run. -/
theorem remap_config_error_context (wp : String → ℕ → LookupResult)
    (wn : String → Option String → ℕ → LookupResult)
    (cf : String) (delay : ℚ) (pa dn ph : Option String) (w : Bool)
    (cm : String → Except String Unit) (rm : Except String Unit)
    (fuel : ℕ) (e : String) :
    remap_main (.error e) wp wn cf delay pa dn ph w cm rm fuel
      = (some (.error ("loading MappingConfig from " ++ cf ++ ": " ++ e)),
        [.load_config cf])
    ∧ ∃ a b, "loading MappingConfig from " ++ cf ++ ": " ++ e = a ++ cf ++ b := by
  refine ⟨rfl, "loading MappingConfig from ", ": " ++ e, ?_⟩
  rw [String.append_assoc]

/-- Claim C3 (amended): in the remap startup sequence the startup delay
comes before the optional wait for the device, not after it: the trace
order is load config, startup delay, the device lookup with its poll
loop, then only mapper-creation and engine steps (the source is opened
by the mapper creation). -/
theorem remap_startup_order (wp : String → ℕ → LookupResult)
    (wn : String → Option String → ℕ → LookupResult)
    (cf : String) (delay : ℚ) (pa dn ph : Option String) (w : Bool)
    (cm : String → Except String Unit) (rm : Except String Unit)
    (fuel : ℕ) (cfg : MappingConfig) :
    ∃ tail,
      (remap_main (.ok cfg) wp wn cf delay pa dn ph w cm rm fuel).2
        = .load_config cf :: .sleep_delay delay ::
            ((get_device wp wn (apply_overrides cfg dn ph pa).path
              (apply_overrides cfg dn ph pa).device_name
              (apply_overrides cfg dn ph pa).phys w fuel).2 ++ tail)
      ∧ tail.all (fun s => isCreateMapper s || isRunEngine s) = true := by
  obtain ⟨tail, htr, hall, -⟩ :=
    remap_ok_decomp wp wn cf delay pa dn ph w cm rm fuel cfg
  exact ⟨tail, htr, hall⟩

/-- Claim C3 counterexample: a concrete run with wait-for-device in
which the lookup first fails performs its poll sleep, yet no poll sleep
precedes the startup delay: the wait for the device happens after the
startup delay, contrary to the claimed order. -/
theorem remap_wait_after_delay_cex :
    ((remap_main (.ok cfgA) (wpAfter 1) wnNever "evremap.toml" 2 none none none true
        cmOK (.ok ()) 12).2.filter isPollSleep).length = 1
    ∧ ((remap_main (.ok cfgA) (wpAfter 1) wnNever "evremap.toml" 2 none none none true
        cmOK (.ok ()) 12).2.takeWhile (fun s => !isSleepDelay s)).filter isPollSleep
        = [] := by
  constructor
  · decide
  · decide

/-- Claim C5: the remap subcommand performs the startup sleep right
after loading the config and before everything else, in particular
before the device is acquired and grabbed; a missing CLI delay resolves
to two seconds. -/
theorem remap_delay_semantics (wp : String → ℕ → LookupResult)
    (wn : String → Option String → ℕ → LookupResult)
    (cf : String) (cli_delay : Option ℚ) (pa dn ph : Option String) (w : Bool)
    (cm : String → Except String Unit) (rm : Except String Unit)
    (fuel : ℕ) (cfg : MappingConfig) :
    resolve_delay none = 2
    ∧ ∃ rest,
        (remap_main (.ok cfg) wp wn cf (resolve_delay cli_delay) pa dn ph w cm rm
            fuel).2
          = .load_config cf :: .sleep_delay (resolve_delay cli_delay) :: rest := by
  obtain ⟨tail, htr, -, -⟩ :=
    remap_ok_decomp wp wn cf (resolve_delay cli_delay) pa dn ph w cm rm fuel cfg
  exact ⟨rfl, _, htr⟩

/-- Claim C10: each CLI override (device name, phys, path) replaces the
corresponding field of the loaded config, a field with no CLI option
keeps its config value, the mappings are untouched, and device selection
is performed with exactly the overridden fields. -/
theorem remap_cli_overrides (cfg : MappingConfig) (dn ph pa : Option String)
    (wp : String → ℕ → LookupResult)
    (wn : String → Option String → ℕ → LookupResult)
    (cf : String) (delay : ℚ) (w : Bool)
    (cm : String → Except String Unit) (rm : Except String Unit) (fuel : ℕ) :
    (apply_overrides cfg dn ph pa).device_name = dn.or cfg.device_name
    ∧ (apply_overrides cfg dn ph pa).phys = ph.or cfg.phys
    ∧ (apply_overrides cfg dn ph pa).path = pa.or cfg.path
    ∧ (apply_overrides cfg dn ph pa).mappings = cfg.mappings
    ∧ ∃ tail,
        (remap_main (.ok cfg) wp wn cf delay pa dn ph w cm rm fuel).2
          = .load_config cf :: .sleep_delay delay ::
              ((get_device wp wn (pa.or cfg.path) (dn.or cfg.device_name)
                (ph.or cfg.phys) w fuel).2 ++ tail) := by
  have hd : (apply_overrides cfg dn ph pa).device_name = dn.or cfg.device_name := by
    cases dn <;> cases ph <;> cases pa <;> rfl
  have hp : (apply_overrides cfg dn ph pa).phys = ph.or cfg.phys := by
    cases dn <;> cases ph <;> cases pa <;> rfl
  have hpa : (apply_overrides cfg dn ph pa).path = pa.or cfg.path := by
    cases dn <;> cases ph <;> cases pa <;> rfl
  have hm : (apply_overrides cfg dn ph pa).mappings = cfg.mappings := by
    cases dn <;> cases ph <;> cases pa <;> rfl
  obtain ⟨tail, htr, -, -⟩ :=
    remap_ok_decomp wp wn cf delay pa dn ph w cm rm fuel cfg
  rw [hd, hp, hpa] at htr
  exact ⟨hd, hp, hpa, hm, tail, htr⟩

/-- Claim C1 (amended): the remap arm never re-acquires the device once
the engine has started: the engine runs at most once, and whenever it
runs, remap exits with exactly the engine result, also on engine EOF and
also when wait-for-device is set (that flag only affects the initial
acquisition). -/
theorem remap_engine_exit (ff : Except String MappingConfig)
    (wp : String → ℕ → LookupResult)
    (wn : String → Option String → ℕ → LookupResult)
    (cf : String) (delay : ℚ) (pa dn ph : Option String) (w : Bool)
    (cm : String → Except String Unit) (rm : Except String Unit) (fuel : ℕ) :
    (((remap_main ff wp wn cf delay pa dn ph w cm rm fuel).2.filter
        isRunEngine).length ≤ 1)
    ∧ (.run_engine ∈ (remap_main ff wp wn cf delay pa dn ph w cm rm fuel).2 →
        (remap_main ff wp wn cf delay pa dn ph w cm rm fuel).1 = some rm) := by
  cases ff with
  | error e =>
    constructor
    · simp [remap_main, isRunEngine]
    · intro hmem
      simp [remap_main] at hmem
  | ok cfg =>
    have hgd0 : (get_device wp wn (apply_overrides cfg dn ph pa).path
        (apply_overrides cfg dn ph pa).device_name
        (apply_overrides cfg dn ph pa).phys w fuel).2.filter isRunEngine = [] :=
      get_device_filter_eq_nil isRunEngine (fun _ => rfl) (fun _ => rfl)
        (fun _ _ => rfl) wp wn _ _ _ w fuel
    have hgdmem : Step.run_engine ∉ (get_device wp wn
        (apply_overrides cfg dn ph pa).path
        (apply_overrides cfg dn ph pa).device_name
        (apply_overrides cfg dn ph pa).phys w fuel).2 := by
      intro hmem
      have := (List.filter_eq_nil_iff.mp hgd0) _ hmem
      simp [isRunEngine] at this
    rcases hgd : (get_device wp wn (apply_overrides cfg dn ph pa).path
        (apply_overrides cfg dn ph pa).device_name
        (apply_overrides cfg dn ph pa).phys w fuel).1 with _ | r
    · constructor
      · simp [remap_main, hgd, List.filter_append, hgd0, isRunEngine]
      · intro hmem
        simp [remap_main, hgd] at hmem
        exact absurd hmem hgdmem
    · rcases r with e | dev
      · constructor
        · simp [remap_main, hgd, List.filter_append, hgd0, isRunEngine]
        · intro hmem
          simp [remap_main, hgd] at hmem
          exact absurd hmem hgdmem
      · cases hcm : cm dev.path with
        | ok u =>
          constructor
          · simp [remap_main, hgd, hcm, List.filter_append, hgd0, isRunEngine]
          · intro hmem
            simp [remap_main, hgd, hcm]
        | error e =>
          constructor
          · simp [remap_main, hgd, hcm, List.filter_append, hgd0, isRunEngine]
          · intro hmem
            simp [remap_main, hgd, hcm, List.mem_append] at hmem
            exact absurd hmem hgdmem

/-- Witness for claim C1: a concrete run in which the engine runs and
reports an error exits with exactly that error. -/
theorem remap_engine_exit_witness :
    Step.run_engine ∈ (remap_main (.ok cfgA) wpAlways wnNever "evremap.toml" 2
        none none none false cmOK (.error "device lost") 5).2
    ∧ (remap_main (.ok cfgA) wpAlways wnNever "evremap.toml" 2
        none none none false cmOK (.error "device lost") 5).1
      = some (.error "device lost") := by
  refine ⟨by decide, ?_⟩
  exact (remap_engine_exit (.ok cfgA) wpAlways wnNever "evremap.toml" 2
      none none none false cmOK (.error "device lost") 5).2 (by decide)

/-! Supporting lemmas and claim theorems about the DebugEvents arm. -/

/-- Every step the debug-events loop emits is a key print. -/
theorem debug_loop_steps (next : ℕ → Except String (ReadStatus × InputEvent)) :
    ∀ fuel i s, s ∈ (debug_loop next i fuel).2 → isPrintKey s = true := by
  intro fuel
  induction fuel with
  | zero => intro i s h; simp [debug_loop] at h
  | succ f ih =>
    intro i s h
    cases hn : next i with
    | error e => simp [debug_loop, hn] at h
    | ok pr =>
      obtain ⟨st, ev⟩ := pr
      cases st with
      | sync => simp [debug_loop, hn] at h
      | success =>
        cases hc : ev.code with
        | ev_key k =>
          simp only [debug_loop, hn, hc, List.mem_cons] at h
          rcases h with rfl | h
          · rfl
          · exact ih (i + 1) s h
        | other t =>
          simp only [debug_loop, hn, hc] at h
          exact ih (i + 1) s h

/-- Everything the debug-events loop prints is a key event taken
verbatim from the source stream: same key code, same value. -/
theorem debug_loop_prints (next : ℕ → Except String (ReadStatus × InputEvent)) :
    ∀ fuel i k v, Step.print_key k v ∈ (debug_loop next i fuel).2 →
      ∃ j ev, next j = .ok (.success, ev) ∧ ev.code = .ev_key k ∧ ev.value = v := by
  intro fuel
  induction fuel with
  | zero => intro i k v h; simp [debug_loop] at h
  | succ f ih =>
    intro i k v h
    cases hn : next i with
    | error e => simp [debug_loop, hn] at h
    | ok pr =>
      obtain ⟨st, ev⟩ := pr
      cases st with
      | sync => simp [debug_loop, hn] at h
      | success =>
        cases hc : ev.code with
        | ev_key k' =>
          simp only [debug_loop, hn, hc, List.mem_cons, Step.print_key.injEq] at h
          rcases h with ⟨rfl, rfl⟩ | h
          · exact ⟨i, ev, hn, hc, rfl⟩
          · exact ih (i + 1) k v h
        | other t =>
          simp only [debug_loop, hn, hc] at h
          exact ih (i + 1) k v h

theorem debug_loop_filter_grab (next : ℕ → Except String (ReadStatus × InputEvent))
    (i fuel : ℕ) : (debug_loop next i fuel).2.filter isGrab = [] := by
  refine List.filter_eq_nil_iff.mpr ?_
  intro s hs
  have := debug_loop_steps next fuel i s hs
  cases s <;> simp_all [isPrintKey, isGrab]

theorem debug_events_filter_grab (openr nfr : Except String Unit)
    (next : ℕ → Except String (ReadStatus × InputEvent))
    (device : DeviceInfo) (fuel : ℕ) :
    (debug_events openr nfr next device fuel).2.filter isGrab = [] := by
  cases openr with
  | error e => simp [debug_events, isGrab]
  | ok u =>
    cases nfr with
    | error e => simp [debug_events, isGrab]
    | ok u' => simp [debug_events, isGrab, debug_loop_filter_grab]

theorem debug_events_prints (openr nfr : Except String Unit)
    (next : ℕ → Except String (ReadStatus × InputEvent))
    (device : DeviceInfo) (fuel : ℕ) (k : ℕ) (v : ℤ)
    (h : Step.print_key k v ∈ (debug_events openr nfr next device fuel).2) :
    ∃ j ev, next j = .ok (.success, ev) ∧ ev.code = .ev_key k ∧ ev.value = v := by
  cases openr with
  | error e => simp [debug_events] at h
  | ok u =>
    cases nfr with
    | error e => simp [debug_events] at h
    | ok u' =>
      simp only [debug_events, List.mem_cons] at h
      rcases h with h | h | h
      · exact absurd h (by simp)
      · exact absurd h (by simp)
      · exact debug_loop_prints next fuel 0 k v h

/-- Claim C6 (amended): the debug-events subcommand selects the device
(with wait-for-device off), opens it and prints its key events verbatim,
without remapping and without requesting an exclusive grab anywhere in
its trace; when it returns an error the process exit status is nonzero.
No SIGINT handler exists in the program, so termination on SIGINT is the
default signal disposition. -/
theorem debug_events_behavior (wp : String → ℕ → LookupResult)
    (wn : String → Option String → ℕ → LookupResult)
    (pa dn ph : Option String) (openr nfr : Except String Unit)
    (next : ℕ → Except String (ReadStatus × InputEvent)) (fuel gfuel : ℕ) :
    ((debug_events_main wp wn pa dn ph openr nfr next fuel gfuel).2.filter isGrab = [])
    ∧ (∀ k v, Step.print_key k v
          ∈ (debug_events_main wp wn pa dn ph openr nfr next fuel gfuel).2 →
        ∃ j ev, next j = .ok (.success, ev) ∧ ev.code = .ev_key k ∧ ev.value = v)
    ∧ (∀ e, (debug_events_main wp wn pa dn ph openr nfr next fuel gfuel).1
          = some (.error e) → exit_code (.error e) = 1) := by
  have hgdgrab : (get_device wp wn pa dn ph false gfuel).2.filter isGrab = [] :=
    get_device_filter_eq_nil isGrab (fun _ => rfl) (fun _ => rfl) (fun _ _ => rfl)
      wp wn pa dn ph false gfuel
  have hgdprint : ∀ k v,
      Step.print_key k v ∉ (get_device wp wn pa dn ph false gfuel).2 := by
    intro k v hmem
    have hnil : (get_device wp wn pa dn ph false gfuel).2.filter isPrintKey = [] :=
      get_device_filter_eq_nil isPrintKey (fun _ => rfl) (fun _ => rfl)
        (fun _ _ => rfl) wp wn pa dn ph false gfuel
    have := (List.filter_eq_nil_iff.mp hnil) _ hmem
    simp [isPrintKey] at this
  rcases hgd : (get_device wp wn pa dn ph false gfuel).1 with _ | r
  · refine ⟨?_, ?_, ?_⟩
    · simp [debug_events_main, hgd, hgdgrab]
    · intro k v hmem
      simp only [debug_events_main, hgd] at hmem
      exact absurd hmem (hgdprint k v)
    · intro e h
      rfl
  · rcases r with e | dev
    · refine ⟨?_, ?_, ?_⟩
      · simp [debug_events_main, hgd, hgdgrab]
      · intro k v hmem
        simp only [debug_events_main, hgd] at hmem
        exact absurd hmem (hgdprint k v)
      · intro e' h
        rfl
    · refine ⟨?_, ?_, ?_⟩
      · simp [debug_events_main, hgd, List.filter_append, hgdgrab,
          debug_events_filter_grab]
      · intro k v hmem
        simp only [debug_events_main, hgd, List.mem_append] at hmem
        rcases hmem with hmem | hmem
        · exact absurd hmem (hgdprint k v)
        · exact debug_events_prints openr nfr next dev fuel k v hmem
      · intro e h
        rfl

/-- Witness for claim C6: a concrete run prints the key event 30 with
value 1, and that print is backed by a verbatim source event. -/
theorem debug_events_behavior_witness :
    Step.print_key 30 1 ∈ (debug_events_main wpAlways wnNever
        (some "/dev/input/event3") none none (.ok ()) (.ok ()) evStream 5 3).2
    ∧ ∃ j ev, evStream j = .ok (.success, ev)
        ∧ ev.code = .ev_key 30 ∧ ev.value = 1 := by
  refine ⟨by decide, ?_⟩
  exact (debug_events_behavior wpAlways wnNever (some "/dev/input/event3") none none
      (.ok ()) (.ok ()) evStream 5 3).2.1 30 1 (by decide)

/-- Claim C6 counterexample: a concrete debug-events run prints the key
events of the selected device yet its trace contains no grab: the device
is never grabbed exclusively on this path. -/
theorem debug_events_no_grab_cex :
    (debug_events_main wpAlways wnNever (some "/dev/input/event3") none none
        (.ok ()) (.ok ()) evStream 5 3)
      = (some (.error "EOF"),
        [.lookup_path "/dev/input/event3", .open_file "/dev/input/event3",
          .new_device "/dev/input/event3", .print_key 30 1, .print_key 30 0])
    ∧ (debug_events_main wpAlways wnNever (some "/dev/input/event3")
        none none (.ok ()) (.ok ()) evStream 5 3).2.filter isGrab = []
    ∧ ((debug_events_main wpAlways wnNever (some "/dev/input/event3")
        none none (.ok ()) (.ok ()) evStream 5 3).2.filter isPrintKey).length = 2 :=
  ⟨rfl, by decide, by decide⟩

/-- Claim C1 counterexample: with wait-for-device set, once the engine
reports device EOF the remap arm returns that error: the trace shows a
single acquisition and a single engine run, with no re-acquisition. -/
theorem remap_no_reacquire_cex :
    remap_main (.ok cfgA) wpAlways wnNever "evremap.toml" 2 none none none true
        cmOK (.error "device lost") 12
      = (some (.error "device lost"),
        [.load_config "evremap.toml", .sleep_delay 2,
          .lookup_path "/dev/input/event3",
          .create_mapper "/dev/input/event3", .run_engine]) := by
  rfl

end Evremap
